import Mathlib

/-!
# Verification of `randomwalk.py` (mattyding/generative-art)

Shallow embedding of the walk-generation, statistics-aggregation and
playback-scheduling core of `src/randomwalk.py`, with theorems settling the
specification's claims.

Modelling conventions:
- `np.random.random()` draws are modelled by an abstract stream `g : ℕ → ℝ`
  of values, consumed in program order; hypotheses `0 ≤ g n < 1` mirror the
  generator's range where a claim needs it.
- Python floats are modelled by exact real arithmetic (`ℝ`).
- `int(num_steps * 0.6)` is modelled by exact floor division `num_steps * 6 / 10`
  (for every `num_steps` in the program's range the double-precision product
  rounds to the exact value, so truncation agrees with the exact floor).
- A Python exception is modelled by `Except.error`.
-/

noncomputable section

/-- `FRAME_SKIP = 4` (line 16 of the source). -/
def FRAME_SKIP : ℕ := 4

/-- `pause_threshold = int(num_steps * PAUSE_RATIO)` with `PAUSE_RATIO = 0.6`
(lines 17 and 52 of the source), in exact arithmetic. -/
def pause_threshold (num_steps : ℕ) : ℕ := num_steps * 6 / 10

/-- The raw trajectory index bound used by `update_lines` (lines 35-41):
`frame * FRAME_SKIP` before the pause threshold, `pause_threshold * FRAME_SKIP`
afterwards. -/
def resolve_frame (pt frame : ℕ) : ℕ :=
  if frame < pt then frame * FRAME_SKIP else pt * FRAME_SKIP

/-- `random_unit_vector` (lines 19-21): one uniform draw gives the angle,
the vector is `(cos angle, sin angle)`; the single draw is reused for both
coordinates. `k` is the position in the random stream. -/
def random_unit_vector (g : ℕ → ℝ) (k : ℕ) : ℝ × ℝ :=
  let angle := g k * 2 * Real.pi
  (Real.cos angle, Real.sin angle)

/-- The loop body of `random_walk` (lines 26-31): starting from position `p`
with the stream at `k`, perform `n` iterations, each drawing a step size
`g k * max_step` and a direction `random_unit_vector g (k+1)`, and collect the
visited positions (including the start, excluding nothing). -/
def walk_steps (g : ℕ → ℝ) (max_step : ℝ) : ℕ → ℕ → ℝ × ℝ → List (ℝ × ℝ)
  | 0, _, p => [p]
  | n + 1, k, p =>
    let step_size := g k * max_step
    let v := random_unit_vector g (k + 1)
    p :: walk_steps g max_step n (k + 2) (p.1 + v.1 * step_size, p.2 + v.2 * step_size)

/-- `random_walk(num_steps, max_step)` (lines 23-32): the start position is
`np.random.random(2) * 2 - 1` (two draws), then `num_steps * FRAME_SKIP`
iterations of the loop body. `k₀` is where this call starts in the random
stream. `num_steps` is an `Int` as in Python; `range` of a non-positive bound
is empty, hence `Int.toNat`. -/
def random_walk (g : ℕ → ℝ) (k₀ : ℕ) (num_steps : ℤ) (max_step : ℝ) :
    List (ℝ × ℝ) :=
  let x := g k₀ * 2 - 1
  let y := g (k₀ + 1) * 2 - 1
  walk_steps g max_step (num_steps * (FRAME_SKIP : ℤ)).toNat (k₀ + 2) (x, y)

/-- Number of random draws one `random_walk` call consumes: two for the start
position and two per iteration. -/
def drawsPerWalk (num_steps : ℤ) : ℕ :=
  2 + 2 * (num_steps * (FRAME_SKIP : ℤ)).toNat

/-- The ensemble builder (line 131):
`walks = [random_walk(num_steps, max_step_size) for _ in range(num_walks)]`,
all walks reading the one shared random stream in sequence. -/
def build_ensemble (g : ℕ → ℝ) (num_walks num_steps : ℤ) (max_step : ℝ) :
    List (List (ℝ × ℝ)) :=
  (List.range num_walks.toNat).map fun j =>
    random_walk g (j * drawsPerWalk num_steps) num_steps max_step

/-- `np.mean` of a list of scalars: sum over length. -/
def meanR (l : List ℝ) : ℝ := l.sum / l.length

/-- `expectations[i]` (line 77): the componentwise arithmetic mean over the
walks of the position at step `i`. -/
def expectation (walks : List (List (ℝ × ℝ))) (i : ℕ) : ℝ × ℝ :=
  (meanR (walks.map fun w => (w.getD i (0, 0)).1),
   meanR (walks.map fun w => (w.getD i (0, 0)).2))

/-- `variances[i]` (line 80): `np.mean([(expectations[i] - walk[i]) ** 2 ...])`
averages the `N × 2` array of per-axis squared deviations over ALL of its
`2 * N` entries, i.e. it divides the sum of squared deviations by twice the
number of walks. -/
def varianceAt (walks : List (List (ℝ × ℝ))) (i : ℕ) : ℝ :=
  (walks.map fun w =>
      ((expectation walks i).1 - (w.getD i (0, 0)).1) ^ 2 +
      ((expectation walks i).2 - (w.getD i (0, 0)).2) ^ 2).sum /
    (2 * walks.length)

/-- The variance the SPEC describes (for refinement comparison only): the
unweighted mean, over the walks, of the squared Euclidean distance to the
ensemble mean — the sum of squared deviations divided by the number of
walks. -/
def spec_varianceAt (walks : List (List (ℝ × ℝ))) (i : ℕ) : ℝ :=
  (walks.map fun w =>
      ((expectation walks i).1 - (w.getD i (0, 0)).1) ^ 2 +
      ((expectation walks i).2 - (w.getD i (0, 0)).2) ^ 2).sum /
    walks.length

/-- The statistics aggregator (lines 77-80). `len(walks[0])` on an empty
ensemble raises `IndexError`, modelled as `Except.error`; otherwise the two
series are produced, one entry per trajectory index. -/
def compute_statistics (walks : List (List (ℝ × ℝ))) :
    Except String (List (ℝ × ℝ) × List ℝ) :=
  match walks with
  | [] => .error "IndexError: list index out of range"
  | w0 :: _ =>
    .ok ((List.range w0.length).map (expectation walks),
         (List.range w0.length).map (varianceAt walks))

/-- Euclidean distance between two positions. -/
def eDist (p q : ℝ × ℝ) : ℝ :=
  Real.sqrt ((q.1 - p.1) ^ 2 + (q.2 - p.2) ^ 2)

/-- The all-zeros random stream, used to instantiate theorems on a concrete
input. -/
def gZero : ℕ → ℝ := fun _ => 0

end

/-! ## Helper lemmas -/

theorem walk_steps_length (g : ℕ → ℝ) (ms : ℝ) :
    ∀ (n k : ℕ) (p : ℝ × ℝ), (walk_steps g ms n k p).length = n + 1 := by
  intro n
  induction n with
  | zero => intro k p; rfl
  | succ m ih => intro k p; simpa [walk_steps] using ih (k + 2) _

theorem walk_steps_head (g : ℕ → ℝ) (ms : ℝ) :
    ∀ (n k : ℕ) (p : ℝ × ℝ), (walk_steps g ms n k p).headD (0, 0) = p := by
  intro n
  cases n with
  | zero => intro k p; rfl
  | succ m => intro k p; rfl

/-! ## C4, C9, C10: the playback scheduler -/

theorem resolve_frame_eq_min (pt f : ℕ) :
    resolve_frame pt f = min f pt * FRAME_SKIP := by
  simp only [resolve_frame, FRAME_SKIP]
  split <;> omega

/-- Claim C4: for `num_steps ≥ 1`, with `pt = pause_threshold num_steps`,
`resolve_frame pt` is non-decreasing on `[0, num_steps]` and constant with
value `pt * FRAME_SKIP` for every frame `≥ pt`; concretely, for
`num_steps = 10`, `pt = 6` and `resolve_frame` maps `5 ↦ 20`, `6 ↦ 24`,
`9 ↦ 24`. -/
theorem C4_scheduler (num_steps : ℕ) (h : 1 ≤ num_steps) :
    (∀ f f', f ≤ f' → f' ≤ num_steps →
      resolve_frame (pause_threshold num_steps) f ≤
        resolve_frame (pause_threshold num_steps) f') ∧
    (∀ f, pause_threshold num_steps ≤ f →
      resolve_frame (pause_threshold num_steps) f =
        pause_threshold num_steps * FRAME_SKIP) ∧
    pause_threshold 10 = 6 ∧
    resolve_frame (pause_threshold 10) 5 = 20 ∧
    resolve_frame (pause_threshold 10) 6 = 24 ∧
    resolve_frame (pause_threshold 10) 9 = 24 := by
  refine ⟨?_, ?_, by decide, by decide, by decide, by decide⟩
  · intro f f' hff hfn
    rw [resolve_frame_eq_min, resolve_frame_eq_min]
    exact Nat.mul_le_mul_right _ (min_le_min hff le_rfl)
  · intro f hf
    rw [resolve_frame_eq_min, min_eq_right hf]

theorem C4_scheduler_witness :
    (∀ f f', f ≤ f' → f' ≤ 10 →
      resolve_frame (pause_threshold 10) f ≤ resolve_frame (pause_threshold 10) f') ∧
    (∀ f, pause_threshold 10 ≤ f →
      resolve_frame (pause_threshold 10) f = pause_threshold 10 * FRAME_SKIP) ∧
    pause_threshold 10 = 6 ∧
    resolve_frame (pause_threshold 10) 5 = 20 ∧
    resolve_frame (pause_threshold 10) 6 = 24 ∧
    resolve_frame (pause_threshold 10) 9 = 24 :=
  C4_scheduler 10 (by decide)

/-- Claim C9: for `num_steps ≥ 1` and every logical frame in `[0, num_steps]`,
the raw index produced by the scheduler is below the trajectory length
`num_steps * FRAME_SKIP + 1`. -/
theorem C9_raw_index_in_bounds (num_steps : ℕ) (h : 1 ≤ num_steps)
    (f : ℕ) (hf : f ≤ num_steps) :
    resolve_frame (pause_threshold num_steps) f < num_steps * FRAME_SKIP + 1 := by
  rw [resolve_frame_eq_min]
  simp only [pause_threshold, FRAME_SKIP]
  omega

theorem C9_raw_index_in_bounds_witness :
    resolve_frame (pause_threshold 10) 7 < 10 * FRAME_SKIP + 1 :=
  C9_raw_index_in_bounds 10 (by decide) 7 (by decide)

/-- Claim C10: for `num_steps ≥ 1` the scheduler's raw index never exceeds
`pause_threshold * FRAME_SKIP`, that bound is attained (at `num_steps` itself,
among others), it is strictly below the last trajectory index
`num_steps * FRAME_SKIP`, and the band of never-selected indices above it has
width `(num_steps - pause_threshold) * FRAME_SKIP` — so the tail of the
simulated data, its last position included, is never displayed. -/
theorem C10_tail_never_displayed (num_steps : ℕ) (h : 1 ≤ num_steps) :
    (∀ f, f ≤ num_steps →
      resolve_frame (pause_threshold num_steps) f ≤
        pause_threshold num_steps * FRAME_SKIP) ∧
    resolve_frame (pause_threshold num_steps) num_steps =
      pause_threshold num_steps * FRAME_SKIP ∧
    pause_threshold num_steps * FRAME_SKIP < num_steps * FRAME_SKIP ∧
    num_steps * FRAME_SKIP - pause_threshold num_steps * FRAME_SKIP =
      (num_steps - pause_threshold num_steps) * FRAME_SKIP := by
  refine ⟨?_, ?_, ?_, ?_⟩
  · intro f hf
    rw [resolve_frame_eq_min]
    exact Nat.mul_le_mul_right _ (min_le_right _ _)
  · rw [resolve_frame_eq_min, min_eq_right]
    simp only [pause_threshold]
    omega
  · simp only [pause_threshold, FRAME_SKIP]
    omega
  · simp only [pause_threshold, FRAME_SKIP]
    omega

theorem C10_tail_never_displayed_witness :
    (∀ f, f ≤ 10 →
      resolve_frame (pause_threshold 10) f ≤ pause_threshold 10 * FRAME_SKIP) ∧
    resolve_frame (pause_threshold 10) 10 = pause_threshold 10 * FRAME_SKIP ∧
    pause_threshold 10 * FRAME_SKIP < 10 * FRAME_SKIP ∧
    10 * FRAME_SKIP - pause_threshold 10 * FRAME_SKIP =
      (10 - pause_threshold 10) * FRAME_SKIP :=
  C10_tail_never_displayed 10 (by decide)

/-! ## C2, C5: trajectory length and the absence of parameter validation -/

/-- Claim C2: for positive `num_steps` (and non-negative `max_step`),
`random_walk` returns a trajectory of length exactly
`num_steps * FRAME_SKIP + 1`, whose index 0 is the start position
`np.random.random(2) * 2 - 1`. -/
theorem C2_walk_length (g : ℕ → ℝ) (k₀ : ℕ) (num_steps : ℤ) (max_step : ℝ)
    (h : 0 < num_steps) (hm : 0 ≤ max_step) :
    ((random_walk g k₀ num_steps max_step).length : ℤ) =
      num_steps * FRAME_SKIP + 1 ∧
    (random_walk g k₀ num_steps max_step).headD (0, 0) =
      (g k₀ * 2 - 1, g (k₀ + 1) * 2 - 1) := by
  constructor
  · rw [random_walk]
    rw [walk_steps_length]
    push_cast
    rw [Int.toNat_of_nonneg]
    positivity
  · rw [random_walk, walk_steps_head]

theorem C2_walk_length_witness :
    ((random_walk gZero 0 2 1).length : ℤ) = 2 * FRAME_SKIP + 1 ∧
    (random_walk gZero 0 2 1).headD (0, 0) =
      (gZero 0 * 2 - 1, gZero 1 * 2 - 1) :=
  C2_walk_length gZero 0 2 1 (by decide) (by norm_num)

/-- Counterexample to claim C5: at `num_steps = 0` (non-positive) and
`max_step = -1` (negative), `random_walk` does not reject the parameters:
it runs and produces trajectory data (the length-1 list holding the start
position). -/
theorem C5_counterexample :
    (random_walk gZero 0 0 (-1)).length = 1 ∧
    random_walk gZero 0 0 (-1) ≠ [] := by
  constructor
  · rfl
  · intro hc
    exact absurd (congrArg List.length hc) (by simp [random_walk, walk_steps])

/-- Claim C5 amended: the code performs no parameter validation and raises no
error. A non-positive `num_steps` makes the loop run zero times, so
`random_walk` returns a length-1 trajectory holding only the start position
(for any `max_step`, a negative one included); a non-positive `num_walks`
yields an empty ensemble, again without an error. -/
theorem C5_no_validation (g : ℕ → ℝ) (k₀ : ℕ) (num_steps num_walks : ℤ)
    (max_step : ℝ) (h1 : num_steps ≤ 0) (h2 : num_walks ≤ 0) :
    (random_walk g k₀ num_steps max_step).length = 1 ∧
    random_walk g k₀ num_steps max_step =
      [(g k₀ * 2 - 1, g (k₀ + 1) * 2 - 1)] ∧
    build_ensemble g num_walks num_steps max_step = [] := by
  have hz : (num_steps * (FRAME_SKIP : ℤ)).toNat = 0 := by
    simp only [FRAME_SKIP]
    omega
  refine ⟨?_, ?_, ?_⟩
  · rw [random_walk, walk_steps_length, hz]
  · rw [random_walk, hz, walk_steps]
  · rw [build_ensemble]
    have : num_walks.toNat = 0 := by omega
    rw [this]
    rfl

theorem C5_no_validation_witness :
    (random_walk gZero 0 0 (-1)).length = 1 ∧
    random_walk gZero 0 0 (-1) =
      [(gZero 0 * 2 - 1, gZero 1 * 2 - 1)] ∧
    build_ensemble gZero (-3) 0 (-1) = [] :=
  C5_no_validation gZero 0 0 (-3) (-1) (by decide) (by decide)

/-! ## C3: per-step displacement bound -/

theorem walk_steps_head? (g : ℕ → ℝ) (ms : ℝ) :
    ∀ (n k : ℕ) (p : ℝ × ℝ), (walk_steps g ms n k p).head? = some p := by
  intro n
  cases n with
  | zero => intro k p; rfl
  | succ m => intro k p; rfl

theorem single_step_eDist (g : ℕ → ℝ) (ms : ℝ) (k : ℕ) (p : ℝ × ℝ)
    (hg0 : 0 ≤ g k) (hg1 : g k < 1) (hm : 0 ≤ ms) :
    eDist p
      (p.1 + (random_unit_vector g (k + 1)).1 * (g k * ms),
       p.2 + (random_unit_vector g (k + 1)).2 * (g k * ms)) ≤ ms := by
  have hs : 0 ≤ g k * ms := mul_nonneg hg0 hm
  have key :
      (p.1 + Real.cos (g (k + 1) * 2 * Real.pi) * (g k * ms) - p.1) ^ 2 +
        (p.2 + Real.sin (g (k + 1) * 2 * Real.pi) * (g k * ms) - p.2) ^ 2 =
      (g k * ms) ^ 2 := by
    have ht := Real.cos_sq_add_sin_sq (g (k + 1) * 2 * Real.pi)
    nlinarith [ht]
  rw [eDist, random_unit_vector]
  simp only
  rw [key, Real.sqrt_sq hs]
  calc g k * ms ≤ 1 * ms := mul_le_mul_of_nonneg_right (le_of_lt hg1) hm
  _ = ms := one_mul ms

theorem walk_steps_chain (g : ℕ → ℝ) (ms : ℝ)
    (hg : ∀ n, 0 ≤ g n ∧ g n < 1) (hm : 0 ≤ ms) :
    ∀ (n k : ℕ) (p : ℝ × ℝ),
      List.Chain' (fun p q => eDist p q ≤ ms) (walk_steps g ms n k p) := by
  intro n
  induction n with
  | zero => intro k p; simp [walk_steps]
  | succ m ih =>
    intro k p
    rw [walk_steps]
    rw [List.chain'_cons']
    refine ⟨?_, ih (k + 2) _⟩
    intro y hy
    rw [walk_steps_head?] at hy
    simp only [Option.mem_def, Option.some_inj] at hy
    subst hy
    exact single_step_eDist g ms k p (hg k).1 (hg k).2 hm

/-- Claim C3: for a random stream with values in `[0, 1)` and a non-negative
`max_step`, every pair of consecutive positions of a `random_walk` trajectory
is at Euclidean distance at most `max_step` (the step is a magnitude
`g k * max_step ∈ [0, max_step)` times the unit vector `(cos θ, sin θ)`, the
same direction draw reused for both axes). -/
theorem C3_step_within_max (g : ℕ → ℝ) (k₀ : ℕ) (num_steps : ℤ) (max_step : ℝ)
    (hg : ∀ n, 0 ≤ g n ∧ g n < 1) (hm : 0 ≤ max_step) :
    List.Chain' (fun p q => eDist p q ≤ max_step)
      (random_walk g k₀ num_steps max_step) := by
  rw [random_walk]
  exact walk_steps_chain g max_step hg hm _ _ _

theorem C3_step_within_max_witness :
    List.Chain' (fun p q => eDist p q ≤ (1 : ℝ)) (random_walk gZero 0 2 1) :=
  C3_step_within_max gZero 0 2 1
    (fun n => ⟨le_refl 0, by norm_num [gZero]⟩) (by norm_num)

/-! ## C7: single-walk statistics -/

/-- Claim C7: for an ensemble of exactly one walk, the variance is `0` at
every step and the mean equals the walk's own position. -/
theorem C7_single_walk (w : List (ℝ × ℝ)) (i : ℕ) :
    varianceAt [w] i = 0 ∧ expectation [w] i = w.getD i (0, 0) := by
  have he : expectation [w] i = w.getD i (0, 0) := by
    simp [expectation, meanR]
  refine ⟨?_, he⟩
  simp [varianceAt, he]

/-! ## C6: empty ensemble fails loudly -/

/-- Claim C6: on an empty ensemble the statistics aggregator fails with an
explicit error (the Python `walks[0]` raises `IndexError`); on every
non-empty ensemble it returns a result, and the averaging denominator
`2 * num_walks` is non-zero, so no division by zero occurs. -/
theorem C6_empty_fails :
    compute_statistics [] = Except.error "IndexError: list index out of range" ∧
    ∀ W : List (List (ℝ × ℝ)), W ≠ [] →
      (∃ out, compute_statistics W = Except.ok out) ∧
      (2 * (W.length : ℝ)) ≠ 0 := by
  refine ⟨rfl, ?_⟩
  intro W hW
  obtain ⟨w0, t, rfl⟩ := List.exists_cons_of_ne_nil hW
  refine ⟨⟨_, rfl⟩, ?_⟩
  push_cast [List.length_cons]
  positivity

theorem C6_empty_fails_witness :
    compute_statistics [] = Except.error "IndexError: list index out of range" ∧
    (∃ out, compute_statistics [[((0 : ℝ), 0)]] = Except.ok out) ∧
    (2 * (([[((0 : ℝ), 0)]] : List (List (ℝ × ℝ))).length : ℝ)) ≠ 0 :=
  ⟨C6_empty_fails.1, C6_empty_fails.2 [[((0 : ℝ), 0)]] (by simp)⟩

/-! ## C1: the variance scalar is half the mean squared Euclidean deviation -/

/-- Counterexample to claim C1: for the ensemble of two one-position walks
`(0, 0)` and `(2, 0)`, the mean is `(1, 0)`, the squared Euclidean distances
to it are `1` and `1`, so the claimed variance is `1` — but the code's
`np.mean` averages over the flattened `2 × 2` array of per-axis squared
deviations and returns `1/2`. -/
theorem C1_counterexample :
    varianceAt [[((0 : ℝ), 0)], [(2, 0)]] 0 = 1 / 2 ∧
    spec_varianceAt [[((0 : ℝ), 0)], [(2, 0)]] 0 = 1 ∧
    varianceAt [[((0 : ℝ), 0)], [(2, 0)]] 0 ≠
      spec_varianceAt [[((0 : ℝ), 0)], [(2, 0)]] 0 := by
  refine ⟨?_, ?_, ?_⟩ <;>
    norm_num [varianceAt, spec_varianceAt, expectation, meanR]

/-- Claim C1 amended: for every non-empty ensemble of equal-length
trajectories, the code's variance at step `i` is HALF the unweighted mean,
over the walks, of the squared Euclidean distance between the walk's position
at step `i` and the ensemble mean at step `i` — the per-axis average of the
squared deviations (the two axes contribute to the denominator), not their
sum. -/
theorem C1_variance_halved (walks : List (List (ℝ × ℝ))) (i : ℕ)
    (h : walks ≠ [])
    (hlen : ∀ w ∈ walks, w.length = (walks.headD []).length) :
    varianceAt walks i = spec_varianceAt walks i / 2 := by
  rw [varianceAt, spec_varianceAt, div_div, mul_comm ((walks.length : ℕ) : ℝ) 2]

theorem C1_variance_halved_witness :
    varianceAt [[((0 : ℝ), 0)], [(2, 0)]] 0 =
      spec_varianceAt [[((0 : ℝ), 0)], [(2, 0)]] 0 / 2 :=
  C1_variance_halved [[((0 : ℝ), 0)], [(2, 0)]] 0 (by simp) (by simp)

/-! ## C8: the pipeline is a deterministic function of the random stream -/

theorem walk_steps_congr (g1 g2 : ℕ → ℝ) (ms : ℝ) :
    ∀ (n k : ℕ) (p : ℝ × ℝ),
      (∀ j, k ≤ j → j < k + 2 * n → g1 j = g2 j) →
      walk_steps g1 ms n k p = walk_steps g2 ms n k p := by
  intro n
  induction n with
  | zero => intro k p _; rfl
  | succ m ih =>
    intro k p h
    have hk : g1 k = g2 k := h k le_rfl (by omega)
    have hk1 : g1 (k + 1) = g2 (k + 1) := h (k + 1) (by omega) (by omega)
    simp only [walk_steps, random_unit_vector]
    rw [hk, hk1]
    congr 1
    exact ih (k + 2) _ fun j hj1 hj2 => h j (by omega) (by omega)

theorem random_walk_congr (g1 g2 : ℕ → ℝ) (k₀ : ℕ) (ns : ℤ) (ms : ℝ)
    (h : ∀ j, k₀ ≤ j → j < k₀ + drawsPerWalk ns → g1 j = g2 j) :
    random_walk g1 k₀ ns ms = random_walk g2 k₀ ns ms := by
  simp only [drawsPerWalk] at h
  have h0 : g1 k₀ = g2 k₀ := h k₀ le_rfl (by omega)
  have h1 : g1 (k₀ + 1) = g2 (k₀ + 1) := h (k₀ + 1) (by omega) (by omega)
  rw [random_walk, random_walk, h0, h1]
  exact walk_steps_congr g1 g2 ms _ (k₀ + 2) _
    fun j hj1 hj2 => h j (by omega) (by omega)

/-- Claim C8: two runs whose random streams agree on every draw the ensemble
consumes (in particular, two runs reseeded with the same seed) and which use
identical parameters produce identical trajectories and identical statistics:
the whole pipeline is a deterministic function of the stream and the
parameters. -/
theorem C8_determinism (g1 g2 : ℕ → ℝ) (num_walks num_steps : ℤ)
    (max_step : ℝ)
    (h : ∀ j, j < num_walks.toNat * drawsPerWalk num_steps → g1 j = g2 j) :
    build_ensemble g1 num_walks num_steps max_step =
      build_ensemble g2 num_walks num_steps max_step ∧
    compute_statistics (build_ensemble g1 num_walks num_steps max_step) =
      compute_statistics (build_ensemble g2 num_walks num_steps max_step) := by
  have he : build_ensemble g1 num_walks num_steps max_step =
      build_ensemble g2 num_walks num_steps max_step := by
    rw [build_ensemble, build_ensemble]
    apply List.map_congr_left
    intro j hj
    have hj' : j + 1 ≤ num_walks.toNat := List.mem_range.mp hj
    apply random_walk_congr
    intro i _ hi2
    apply h
    calc i < j * drawsPerWalk num_steps + drawsPerWalk num_steps := hi2
    _ = (j + 1) * drawsPerWalk num_steps := (Nat.succ_mul j _).symm
    _ ≤ num_walks.toNat * drawsPerWalk num_steps :=
        Nat.mul_le_mul_right _ hj'
  exact ⟨he, by rw [he]⟩

theorem C8_determinism_witness :
    build_ensemble gZero 1 1 1 = build_ensemble gZero 1 1 1 ∧
    compute_statistics (build_ensemble gZero 1 1 1) =
      compute_statistics (build_ensemble gZero 1 1 1) :=
  C8_determinism gZero gZero 1 1 1 fun _ _ => rfl
